import Mathlib

/-!
Verification development for the MediaCrawler dashboard backend
(`src/backend/server.py`): a shallow embedding of the session registry,
the per-session broadcast hub (`SessionManager`), the background task
`run_crawler_task` with its injected update callback, and the
history-listing endpoint `get_sessions_history`.

Modelling conventions:
* Python strings are Lean `String`s; `x in y` (substring test) is `strIn`.
* `deque(maxlen=500)` is a `List String` together with `dequeAppend`,
  which drops from the left once the capacity is exceeded.
* A WebSocket is a `Viewer`: an identifier plus an `ok` flag meaning
  "`send_text` to this connection succeeds".  JSON serialisation of the
  structured payloads is transport-level and is modelled structurally
  (`WsMsg.stats` / `WsMsg.data` carry the object fields directly).
* Each operation returns the updated `SessionData` together with the
  list of successful deliveries `(viewer id, message)`, in send order.
* Timestamps (`time.time()` / `loop.time()`) are naturals supplied as a
  `now` parameter; `datetime.fromtimestamp(t).date()` is an abstract
  calendar-date projection `dateOf : Nat → Nat` kept as a parameter.
* Fallible Python code (an uncaught exception) is `Except String`.
-/

namespace Server

/-- Python list-of-chars test used to implement the substring operator:
`hasPref n h` is `n.isPrefixOf h` unfolded over explicit lists. -/
def hasPref : List Char → List Char → Bool
  | [], _ => true
  | _ :: _, [] => false
  | a :: as, b :: bs => a == b && hasPref as bs

/-- Python `needle in hay` on strings: some position of `hay` starts with
`needle`. -/
def subCheck : List Char → List Char → Bool
  | n, [] => n.isEmpty
  | n, c :: cs => hasPref n (c :: cs) || subCheck n cs

/-- Python `needle in hay` for `String`s. -/
def strIn (needle hay : String) : Bool :=
  subCheck needle.data hay.data

/-- Declarative substring predicate, for relating `strIn` to the spec's
"contains ... as a substring". -/
def SubStr (n h : List Char) : Prop := ∃ s t, s ++ n ++ t = h

/-- Declarative form of `hasPref`. -/
def PrefOf (n h : List Char) : Prop := ∃ t, n ++ t = h

theorem hasPref_iff (n h : List Char) : hasPref n h = true ↔ PrefOf n h := by
  induction n generalizing h with
  | nil => simp [hasPref, PrefOf]
  | cons a as ih =>
    cases h with
    | nil =>
      simp [hasPref, PrefOf]
    | cons b bs =>
      simp only [hasPref, Bool.and_eq_true, beq_iff_eq, ih, PrefOf]
      constructor
      · rintro ⟨rfl, t, rfl⟩
        exact ⟨t, rfl⟩
      · rintro ⟨t, h⟩
        cases h
        exact ⟨rfl, t, rfl⟩

theorem subCheck_iff (n h : List Char) : subCheck n h = true ↔ SubStr n h := by
  induction h with
  | nil =>
    simp only [subCheck, List.isEmpty_iff, SubStr]
    constructor
    · rintro rfl
      exact ⟨[], [], rfl⟩
    · rintro ⟨s, t, h⟩
      rcases List.append_eq_nil.mp h with ⟨h1, h2⟩
      exact (List.append_eq_nil.mp h1).2
  | cons c cs ih =>
    simp only [subCheck, Bool.or_eq_true, hasPref_iff, ih, SubStr, PrefOf]
    constructor
    · rintro (⟨t, h⟩ | ⟨s, t, h⟩)
      · exact ⟨[], t, by simpa using h⟩
      · exact ⟨c :: s, t, by simp [h]⟩
    · rintro ⟨s, t, h⟩
      cases s with
      | nil => exact Or.inl ⟨t, by simpa using h⟩
      | cons d ds =>
        simp only [List.cons_append, List.cons.injEq] at h
        exact Or.inr ⟨ds, t, h.2⟩

theorem strIn_iff (needle hay : String) :
    strIn needle hay = true ↔ SubStr needle.data hay.data :=
  subCheck_iff _ _

/-- Python `str.lower()`, as character-wise case folding. -/
def pyLower (s : String) : String := ⟨s.data.map Char.toLower⟩

/-- Python `str.strip()`: remove whitespace from both ends. -/
def pyStrip (s : String) : String :=
  ⟨((s.data.dropWhile Char.isWhitespace).reverse.dropWhile
      Char.isWhitespace).reverse⟩

/-- Capacity of the `deque(maxlen=500)` from `SessionData.__init__`. -/
def maxLogs : Nat := 500

/-- Embedding of `deque.append` with a `maxlen`: push on the right, evict from the left
once over capacity. -/
def dequeAppend (cap : Nat) (xs : List String) (x : String) : List String :=
  let ys := xs ++ [x]
  if cap < ys.length then ys.drop (ys.length - cap) else ys

/-- One WebSocket connection: identifier plus whether `send_text` to it
succeeds. -/
structure Viewer where
  id : Nat
  ok : Bool
deriving DecidableEq

/-- Python `dict` payload (e.g. a note item), as an association list. -/
abbrev Dict := List (String × String)

/-- Embedding of `SessionData` (server.py lines 47-62): per-session state, one record
per session id in the manager's registry. -/
structure SessionData where
  logs : List String
  crawled_count : Nat
  is_running : Bool
  active_sockets : List Viewer
  start_time : Option Nat
  end_time : Option Nat
  error_message : Option String
  keyword : String
  platform : String
  request_count : Nat
deriving DecidableEq

/-- A fresh `SessionData()`: what `get_session` creates on first
reference. -/
def initSessionData : SessionData :=
  { logs := []
  , crawled_count := 0
  , is_running := false
  , active_sockets := []
  , start_time := none
  , end_time := none
  , error_message := none
  , keyword := ""
  , platform := ""
  , request_count := 0 }

/-- The structured `{"type": "stats", ...}` object built in
`send_stat_update`. -/
structure StatsPayload where
  crawled_count : Nat
  status : String
  start_time : Option Nat
  error_message : Option String
deriving DecidableEq

/-- A message delivered on a WebSocket.  The Python code sends every kind
through `send_text`; structured payloads are JSON-encoded there and kept
structural here. -/
inductive WsMsg where
  | text (s : String)
  | stats (p : StatsPayload)
  | data (d : Dict)
deriving DecidableEq

/-- A successful delivery: (viewer id, message). -/
abbrev Delivery := Nat × WsMsg

/-- The messages viewer `i` received, in order, from a delivery trace. -/
def received (i : Nat) (tr : List Delivery) : List WsMsg :=
  tr.filterMap fun d => if d.1 = i then some d.2 else none

/-- The sockets that survive a broadcast loop: every dead (failed) socket
is discarded afterwards. -/
def liveSockets (l : List Viewer) : List Viewer :=
  l.filter fun v => v.ok

/-- One broadcast of a single message to every attached socket, mirroring
the `for ws in list(session.active_sockets)` loops: each send is attempted
independently, failures are collected and those sockets discarded. -/
def broadcast (l : List Viewer) (m : WsMsg) : List Delivery :=
  (liveSockets l).map fun v => (v.id, m)

/-- Embedding of `SessionManager.safe_emit` (lines 119-135): append to the bounded log,
then broadcast the text to all attached sockets, dropping dead ones.  The
function is total: a failed send never raises to the caller. -/
def safeEmit (s : SessionData) (m : String) : SessionData × List Delivery :=
  let s1 := { s with logs := dequeAppend maxLogs s.logs m }
  ({ s1 with active_sockets := liveSockets s1.active_sockets }
  , broadcast s1.active_sockets (WsMsg.text m))

/-- The stats object of `send_stat_update` (lines 141-147). -/
def statsPayload (s : SessionData) : StatsPayload :=
  { crawled_count := s.crawled_count
  , status := if s.is_running then "running" else "stopped"
  , start_time := s.start_time
  , error_message := s.error_message }

/-- Embedding of `SessionManager.send_stat_update` (lines 137-156): broadcast the stats
snapshot when any socket is attached, dropping dead sockets. -/
def sendStatUpdate (s : SessionData) : SessionData × List Delivery :=
  if s.active_sockets.isEmpty then (s, [])
  else
    ({ s with active_sockets := liveSockets s.active_sockets }
    , broadcast s.active_sockets (WsMsg.stats (statsPayload s)))

/-- Embedding of `SessionManager.send_data_update` (lines 158-175). -/
def sendDataUpdate (s : SessionData) (d : Dict) : SessionData × List Delivery :=
  if s.active_sockets.isEmpty then (s, [])
  else
    ({ s with active_sockets := liveSockets s.active_sockets }
    , broadcast s.active_sockets (WsMsg.data d))

/-- Embedding of `SessionManager.set_status` (lines 177-186): overwrite `is_running`
and `error_message` (the latter defaults to `None` in Python, so callers
passing no message clear it), stamp `end_time` when stopping, then push a
stats snapshot. -/
def setStatus (s : SessionData) (running : Bool) (err : Option String)
    (now : Nat) : SessionData × List Delivery :=
  let s1 := { s with is_running := running, error_message := err }
  let s2 := if running then s1 else { s1 with end_time := some now }
  sendStatUpdate s2

/-- Embedding of `SessionManager.increment_count` (lines 188-192). -/
def incrementCount (s : SessionData) : SessionData × List Delivery :=
  sendStatUpdate { s with crawled_count := s.crawled_count + 1 }

/-- Embedding of `SessionManager.connect` (lines 93-109): accept, register the socket,
send the whole retained history joined by newlines as one text frame
(only when non-empty), then one stats snapshot.  The history send is not
guarded by a `try`, so a failing socket raises out of `connect`. -/
def connect (s : SessionData) (v : Viewer) :
    Except String (SessionData × List Delivery) :=
  let s1 := { s with active_sockets := s.active_sockets ++ [v] }
  if s1.logs.isEmpty then
    let r := sendStatUpdate s1
    Except.ok (r.1, r.2)
  else if v.ok then
    let r := sendStatUpdate s1
    Except.ok (r.1, (v.id, WsMsg.text (String.intercalate "\n" s1.logs)) :: r.2)
  else
    Except.error "ConnectionClosed"

/-- Embedding of `CrawlRequest` (lines 34-38). -/
structure CrawlRequest where
  keyword : String
  count : Nat
  platform : String
  session_id : Option String
deriving DecidableEq

/-- Embedding of `on_crawler_update` (lines 382-398), the callback closure built inside
`run_crawler_task`.  Python truthiness: an empty string / `None` message
skips the log step, and a `None` or empty dict is a falsy `data_item`.
The count guard `data_item or "保存成功" in message` short-circuits, so with
a falsy `data_item` and a `None` message the `in` operator is applied to
`None` and raises a `TypeError`, modelled as `Except.error`. -/
def onCrawlerUpdate (msg : Option String) (ditem : Option Dict)
    (s : SessionData) : Except String (SessionData × List Delivery) :=
  let msgTruthy : Bool := match msg with
    | some m => !(m == "")
    | none => false
  let step1 : SessionData × List Delivery :=
    if msgTruthy then safeEmit s (msg.getD "") else (s, [])
  let dTruthy : Bool := match ditem with
    | some d => !d.isEmpty
    | none => false
  let guard : Except String Bool :=
    if dTruthy then Except.ok true
    else match msg with
      | some m => Except.ok (strIn "保存成功" m)
      | none => Except.error "TypeError: argument of type NoneType is not iterable"
  match guard with
  | Except.error e => Except.error e
  | Except.ok cond =>
    let step2 := if cond then incrementCount step1.1 else (step1.1, [])
    let step3 :=
      if dTruthy then sendDataUpdate step2.1 (ditem.getD []) else (step2.1, [])
    Except.ok (step3.1, step1.2 ++ step2.2 ++ step3.2)

/-- Embedding of `CrawlerFactory.create_crawler` (lines 489-494): only `"xhs"` is in
the `CRAWLERS` table; any other platform raises `ValueError`.  The single
crawler class is `XiaoHongShuCrawler`, so the `isinstance` check in
`run_crawler_task` always succeeds on the non-error path. -/
def createCrawler (platform : String) : Except String Unit :=
  if platform = "xhs" then Except.ok ()
  else Except.error ("Unsupported platform: " ++ platform)

/-- The module-level slot `xhs_store.update_xhs_note` that
`run_crawler_task` monkey-patches: either the original function or the
WebSocket wrapper installed for a run. -/
inductive HookState where
  | original
  | overridden
deriving DecidableEq

/-- How the awaited `asyncio.wait_for(crawler.start(), timeout=600)`
ends: normal return, `asyncio.TimeoutError` after the 600 s deadline, or
any other exception with its message. -/
inductive JobOutcome where
  | success
  | timeout
  | failure (err : String)
deriving DecidableEq

/-- Embedding of `run_crawler_task` (lines 359-479), single-session view.
The external crawler execution is abstracted by its `JobOutcome`; everything this task
itself does to the session, to the delivery stream and to the
`xhs_store.update_xhs_note` hook slot is modelled step by step:

1. duplicate-start guard: if already running, emit one notice and return;
2. initialise run state (lines 367-377) and emit the startup lines;
3. create the crawler (`ValueError` for unknown platforms lands in the
   outer `except Exception` handler, lines 469-475);
4. XHS branch: install the hook wrapper, `set_status(True)`, await the
   job, handle `TimeoutError` / `Exception`, and in the inner `finally`
   restore the hook and `set_status(False)` (with Python's default
   `error_message=None`);
5. outer `finally`: emit the final log line and a final stats snapshot.

Returns (final session, final hook slot, delivery trace). -/
def runCrawlerTask (req : CrawlRequest) (outcome : JobOutcome) (now : Nat)
    (s : SessionData) (hook : HookState) :
    SessionData × HookState × List Delivery :=
  if s.is_running then
    let r := safeEmit s "⚠️ 任务已经在运行中，请勿重复启动。"
    (r.1, hook, r.2)
  else
    let s1 := { s with is_running := true
                     , crawled_count := 0
                     , start_time := some now
                     , error_message := none
                     , logs := []
                     , keyword := req.keyword
                     , platform := req.platform
                     , request_count := req.count }
    let r2 := safeEmit s1 ("🚀 任务启动: " ++ req.platform ++ " - " ++ req.keyword)
    let r3 := safeEmit r2.1 ("🔍 正在创建 " ++ req.platform ++ " 爬虫实例...")
    match createCrawler req.platform with
    | Except.error e =>
      let msg := "💥 任务异常停止: " ++ e
      let r4 := setStatus r3.1 false (some msg) now
      let r5 := safeEmit r4.1 msg
      let r6 := safeEmit r5.1 "🏁 任务结束"
      let r7 := sendStatUpdate r6.1
      (r7.1, hook, r2.2 ++ r3.2 ++ r4.2 ++ r5.2 ++ r6.2 ++ r7.2)
    | Except.ok _ =>
      let r4 := safeEmit r3.1 "✅ 爬虫实例创建成功: XiaoHongShuCrawler"
      let r5 := safeEmit r4.1 "🔧 配置小红书爬虫实时数据流..."
      let savedHook := hook
      let r6 := safeEmit r5.1 "🚀 启动浏览器和爬虫任务..."
      let r7 := setStatus r6.1 true none now
      let r8 : SessionData × List Delivery :=
        match outcome with
        | JobOutcome.success => safeEmit r7.1 "✅ 爬虫任务执行完成"
        | JobOutcome.timeout =>
          let ra := setStatus r7.1 false (some "任务超时") now
          let rb := safeEmit ra.1 "❌ 任务执行超时（10分钟）"
          (rb.1, ra.2 ++ rb.2)
        | JobOutcome.failure e =>
          let ra := setStatus r7.1 false (some e) now
          let rb := safeEmit ra.1 ("❌ 爬虫执行异常: " ++ e)
          (rb.1, ra.2 ++ rb.2)
      let r9 := setStatus r8.1 false none now
      let r10 := safeEmit r9.1 "🏁 任务结束"
      let r11 := sendStatUpdate r10.1
      (r11.1, savedHook
      , r2.2 ++ r3.2 ++ r4.2 ++ r5.2 ++ r6.2 ++ r7.2 ++ r8.2 ++ r9.2
          ++ r10.2 ++ r11.2)

/-- A row of the `/api/sessions` response (lines 342-351). -/
structure SummaryRow where
  session_id : String
  keyword : String
  platform : String
  start_time : Option Nat
  crawled_count : Nat
  status : String
deriving DecidableEq

/-- The summary projection built for each retained session. -/
def mkRow (sid : String) (s : SessionData) : SummaryRow :=
  { session_id := sid
  , keyword := s.keyword
  , platform := s.platform
  , start_time := s.start_time
  , crawled_count := s.crawled_count
  , status := if s.is_running then "running" else "stopped" }

/-- The sort key `item.get("start_time") or 0` (line 354): `None` and the
falsy timestamp `0` both map to `0`. -/
def rowKey (r : SummaryRow) : Nat := r.start_time.getD 0

/-- The per-session filter of `get_sessions_history` (lines 318-340):
the query is stripped and lowercased once; an empty (post-strip) query
matches everything; the platform filter is skipped when falsy (`None` or
`""`) or `"all"`; the date filter requires a truthy `start_time` whose
derived calendar date equals the target. -/
def passesFilters (q : Option String) (targetDate : Option Nat)
    (platform : Option String) (dateOf : Nat → Nat) (s : SessionData) : Bool :=
  let query := pyLower (pyStrip (q.getD ""))
  (query == "" || strIn query (pyLower s.keyword)) &&
  (match platform with
   | none => true
   | some p => p == "" || p == "all" || s.platform == p) &&
  (match targetDate with
   | none => true
   | some d =>
     match s.start_time with
     | none => false
     | some t => !(t == 0) && dateOf t == d)

/-- Embedding of `get_sessions_history` (lines 296-356): build a summary row for every
session passing the filters, then sort descending by `start_time or 0`
(`list.sort` is stable, so rows with equal keys keep registry order).
`targetDate` is the already-parsed `date` parameter (an unparseable date
string yields `None`, lines 312-316); `dateOf` abstracts
`datetime.fromtimestamp(t).date()`. -/
def getSessionsHistory (dateOf : Nat → Nat)
    (registry : List (String × SessionData))
    (q : Option String) (targetDate : Option Nat) (platform : Option String) :
    List SummaryRow :=
  let rows := registry.filterMap fun p =>
    if passesFilters q targetDate platform dateOf p.2 then
      some (mkRow p.1 p.2)
    else none
  rows.mergeSort fun a b => decide (rowKey b ≤ rowKey a)

/-- Repeatedly `safe_emit` text into a session (state only; the delivery
traces are examined separately where needed). -/
def applyEmits (s : SessionData) (msgs : List String) : SessionData :=
  msgs.foldl (fun t m => (safeEmit t m).1) s

/-- Modelled from the spec: the session-list filter exactly as claim C7
words it, for comparison with the code's `passesFilters` — the keyword
filter is a case-insensitive substring test of the query as given
(absent/empty matches all, no whitespace stripping), the platform filter
is disabled only by absence or the sentinel `"all"` (an empty string is a
real filter value), and the date filter is calendar-date equality against
the date derived from `start_time` (sessions without one never match). -/
def specPassesFilters (q : Option String) (targetDate : Option Nat)
    (platform : Option String) (dateOf : Nat → Nat) (s : SessionData) : Bool :=
  (match q with
   | none => true
   | some qq => qq == "" || strIn (pyLower qq) (pyLower s.keyword)) &&
  (match platform with
   | none => true
   | some p => p == "all" || s.platform == p) &&
  (match targetDate with
   | none => true
   | some d =>
     match s.start_time with
     | none => false
     | some t => dateOf t == d)

/-- Modelled from the spec: the session-list operation as claim C7 words
it (filter by `specPassesFilters`, then the same descending sort). -/
def specGetSessionsHistory (dateOf : Nat → Nat)
    (registry : List (String × SessionData))
    (q : Option String) (targetDate : Option Nat) (platform : Option String) :
    List SummaryRow :=
  let rows := registry.filterMap fun p =>
    if specPassesFilters q targetDate platform dateOf p.2 then
      some (mkRow p.1 p.2)
    else none
  rows.mergeSort fun a b => decide (rowKey b ≤ rowKey a)

/-- Declarative description of the code's actual per-session filter
(proved equivalent to `passesFilters` below): the query is stripped and
lowercased before the substring test; the platform filter is disabled by
absence, the empty string, or `"all"`; the date filter needs a truthy
(non-zero) `start_time` whose derived date equals the target. -/
def MatchesCode (q : Option String) (targetDate : Option Nat)
    (platform : Option String) (dateOf : Nat → Nat) (s : SessionData) : Prop :=
  (pyLower (pyStrip (q.getD "")) = "" ∨
    SubStr (pyLower (pyStrip (q.getD ""))).data (pyLower s.keyword).data) ∧
  (∀ p, platform = some p → p = "" ∨ p = "all" ∨ s.platform = p) ∧
  (∀ d, targetDate = some d →
    ∃ t, s.start_time = some t ∧ t ≠ 0 ∧ dateOf t = d)

/-- A concrete calendar-date projection (epoch days), standing in for
`datetime.fromtimestamp(t).date()` in concrete instances. -/
def dateOfDays (t : Nat) : Nat := t / 86400

/-! ## Concrete instances used by witnesses and counterexamples -/

def c7Session : SessionData :=
  { initSessionData with
      keyword := "cat", platform := "xhs", start_time := some 100 }

def c7Registry : List (String × SessionData) := [("s1", c7Session)]

def c7Row : SummaryRow := mkRow "s1" c7Session

def c7SessA : SessionData :=
  { initSessionData with
      keyword := "cat", platform := "xhs", start_time := some 200 }

def c7SessB : SessionData :=
  { initSessionData with
      keyword := "dog", platform := "xhs", start_time := some 100 }

def c7Reg2 : List (String × SessionData) := [("A", c7SessA), ("B", c7SessB)]

/-- Three attached viewers, the second one broken (spec §8 scenario). -/
def c6Session : SessionData :=
  { initSessionData with
      active_sockets := [⟨1, true⟩, ⟨2, false⟩, ⟨3, true⟩] }

/-- A session in the middle of a run, one live viewer attached. -/
def c4Session : SessionData :=
  { initSessionData with
      is_running := true
    , crawled_count := 5
    , start_time := some 900
    , active_sockets := [⟨1, true⟩] }

def c4Req : CrawlRequest :=
  { keyword := "cat", count := 20, platform := "xhs", session_id := none }

/-- A session right after a run ended by deadline expiry: the task marked
it non-running; a late callback from the still-unfinished job arrives
afterwards. -/
def c1State : SessionData :=
  { initSessionData with
      is_running := false
    , crawled_count := 3
    , start_time := some 1000
    , end_time := some 1600
    , logs := ["❌ 任务执行超时（10分钟）"]
    , active_sockets := [⟨1, true⟩] }

def c2Req : CrawlRequest :=
  { keyword := "test", count := 20, platform := "xhs", session_id := none }

/-- A fresh session with one live viewer, about to run a job that will
hit the 600 s deadline. -/
def c2Session : SessionData :=
  { initSessionData with active_sockets := [⟨1, true⟩] }

/-! ## Helper lemmas -/

theorem liveSockets_idem (l : List Viewer) :
    liveSockets (liveSockets l) = liveSockets l := by
  simp [liveSockets, List.filter_filter]

theorem safeEmit_fst (s : SessionData) (m : String) :
    (safeEmit s m).1 =
      { s with logs := dequeAppend maxLogs s.logs m
             , active_sockets := liveSockets s.active_sockets } := rfl

theorem safeEmit_snd (s : SessionData) (m : String) :
    (safeEmit s m).2 = broadcast s.active_sockets (WsMsg.text m) := rfl

theorem sendStatUpdate_fst (s : SessionData) :
    (sendStatUpdate s).1 =
      { s with active_sockets := liveSockets s.active_sockets } := by
  rcases s with ⟨lg, cc, ir, socks, st, et, em, kw, pf, rc⟩
  cases socks with
  | nil => rfl
  | cons a as => rfl

theorem sendStatUpdate_snd (s : SessionData) :
    (sendStatUpdate s).2 =
      broadcast s.active_sockets (WsMsg.stats (statsPayload s)) := by
  rcases s with ⟨lg, cc, ir, socks, st, et, em, kw, pf, rc⟩
  cases socks with
  | nil => rfl
  | cons a as => rfl

theorem sendDataUpdate_fst (s : SessionData) (d : Dict) :
    (sendDataUpdate s d).1 =
      { s with active_sockets := liveSockets s.active_sockets } := by
  rcases s with ⟨lg, cc, ir, socks, st, et, em, kw, pf, rc⟩
  cases socks with
  | nil => rfl
  | cons a as => rfl

theorem sendDataUpdate_snd (s : SessionData) (d : Dict) :
    (sendDataUpdate s d).2 = broadcast s.active_sockets (WsMsg.data d) := by
  rcases s with ⟨lg, cc, ir, socks, st, et, em, kw, pf, rc⟩
  cases socks with
  | nil => rfl
  | cons a as => rfl

theorem setStatus_fst (s : SessionData) (running : Bool) (err : Option String)
    (now : Nat) :
    (setStatus s running err now).1 =
      { s with is_running := running
             , error_message := err
             , end_time := if running then s.end_time else some now
             , active_sockets := liveSockets s.active_sockets } := by
  cases running <;> simp [setStatus, sendStatUpdate_fst]

theorem setStatus_snd (s : SessionData) (running : Bool) (err : Option String)
    (now : Nat) :
    (setStatus s running err now).2 =
      broadcast s.active_sockets
        (WsMsg.stats
          { crawled_count := s.crawled_count
          , status := if running then "running" else "stopped"
          , start_time := s.start_time
          , error_message := err }) := by
  cases running <;> simp [setStatus, sendStatUpdate_snd, statsPayload]

theorem incrementCount_fst (s : SessionData) :
    (incrementCount s).1 =
      { s with crawled_count := s.crawled_count + 1
             , active_sockets := liveSockets s.active_sockets } := by
  simp [incrementCount, sendStatUpdate_fst]

theorem incrementCount_snd (s : SessionData) :
    (incrementCount s).2 =
      broadcast s.active_sockets
        (WsMsg.stats
          { crawled_count := s.crawled_count + 1
          , status := if s.is_running then "running" else "stopped"
          , start_time := s.start_time
          , error_message := s.error_message }) := by
  simp [incrementCount, sendStatUpdate_snd, statsPayload]

/-- Folding bounded appends from a state within capacity retains exactly
the most recent `cap` elements of the whole appended sequence. -/
theorem foldl_dequeAppend (cap : Nat) (msgs : List String) :
    ∀ acc : List String, acc.length ≤ cap →
      msgs.foldl (dequeAppend cap) acc =
        (acc ++ msgs).drop ((acc ++ msgs).length - cap) := by
  induction msgs with
  | nil =>
    intro acc h
    simp [Nat.sub_eq_zero_of_le h]
  | cons m ms ih =>
    intro acc h
    rw [List.foldl_cons]
    have hlm : (acc ++ [m]).length = acc.length + 1 := by simp
    by_cases hlt : cap < acc.length + 1
    · have hlen : acc.length = cap := by omega
      have hstep : dequeAppend cap acc m = (acc ++ [m]).drop 1 := by
        simp only [dequeAppend]
        rw [hlm, if_pos hlt]
        congr 1
        omega
      have hdl : ((acc ++ [m]).drop 1).length ≤ cap := by
        simp [hlen]
      rw [hstep, ih ((acc ++ [m]).drop 1) hdl]
      have e1 : (acc ++ [m]).drop 1 ++ ms = (acc ++ [m] ++ ms).drop 1 :=
        (List.drop_append_of_le_length (by simp)).symm
      rw [e1, List.drop_drop]
      have e2 : acc ++ m :: ms = acc ++ [m] ++ ms := by simp
      rw [e2]
      congr 1
      simp only [List.length_drop, List.length_append, List.length_cons,
        List.length_nil, hlen]
      omega
    · have hstep : dequeAppend cap acc m = acc ++ [m] := by
        simp only [dequeAppend]
        rw [hlm, if_neg hlt]
      have hle : (acc ++ [m]).length ≤ cap := by omega
      rw [hstep, ih (acc ++ [m]) hle]
      have e2 : acc ++ m :: ms = acc ++ [m] ++ ms := by simp
      rw [e2]

theorem applyEmits_logs (s : SessionData) (msgs : List String) :
    (applyEmits s msgs).logs = msgs.foldl (dequeAppend maxLogs) s.logs := by
  induction msgs generalizing s with
  | nil => rfl
  | cons m ms ih =>
    simp only [applyEmits, List.foldl_cons] at *
    rw [ih]
    rfl

theorem received_append (i : Nat) (a b : List Delivery) :
    received i (a ++ b) = received i a ++ received i b := by
  simp [received, List.filterMap_append]

theorem getLast?_of_all_eq {α : Type} {l : List α} {m : α} (hne : l ≠ [])
    (hall : ∀ x ∈ l, x = m) : l.getLast? = some m := by
  induction l with
  | nil => exact absurd rfl hne
  | cons a as ih =>
    cases as with
    | nil => simp [hall a (by simp)]
    | cons b bs =>
      rw [List.getLast?_cons_cons]
      exact ih (by simp) fun x hx => hall x (List.mem_cons_of_mem a hx)

theorem mem_received_broadcast (l : List Viewer) (m : WsMsg) (v : Viewer)
    (hv : v ∈ l) (hok : v.ok = true) : m ∈ received v.id (broadcast l m) := by
  have hb : (v.id, m) ∈ broadcast l m :=
    List.mem_map_of_mem _ (List.mem_filter.mpr ⟨hv, hok⟩)
  exact List.mem_filterMap.mpr ⟨(v.id, m), hb, by simp⟩

theorem all_received_broadcast (i : Nat) (l : List Viewer) (m : WsMsg) :
    ∀ x ∈ received i (broadcast l m), x = m := by
  intro x hx
  rcases List.mem_filterMap.mp hx with ⟨d, hd, hdx⟩
  rcases List.mem_map.mp hd with ⟨w, _, hw⟩
  by_cases hid : d.1 = i
  · rw [if_pos hid] at hdx
    cases hdx
    rw [← hw]
  · rw [if_neg hid] at hdx
    cases hdx

/-- The last message a live viewer receives from a trace ending in a
broadcast is that broadcast's message. -/
theorem received_last (pre : List Delivery) (l : List Viewer) (m : WsMsg)
    (v : Viewer) (hv : v ∈ l) (hok : v.ok = true) :
    (received v.id (pre ++ broadcast l m)).getLast? = some m := by
  rw [received_append, List.getLast?_append]
  rw [getLast?_of_all_eq (List.ne_nil_of_mem (mem_received_broadcast l m v hv hok))
    (all_received_broadcast v.id l m)]
  rfl

theorem dequeAppend_getLast (cap : Nat) (hcap : 1 ≤ cap) (xs : List String)
    (x : String) : (dequeAppend cap xs x).getLast? = some x := by
  unfold dequeAppend
  by_cases h : cap < (xs ++ [x]).length
  · rw [if_pos h, List.drop_append_of_le_length (by simp at h ⊢; omega)]
    exact List.getLast?_concat _
  · rw [if_neg h]
    exact List.getLast?_concat _

/-- Both terminal emissions of `run_crawler_task`'s outer `finally`: after
`safe_emit("🏁 任务结束")` followed by `send_stat_update`, the last history
entry is the final log line. -/
theorem logs_tail_final (Z : SessionData) :
    (sendStatUpdate (safeEmit Z "🏁 任务结束").1).1.logs.getLast? =
      some "🏁 任务结束" := by
  simp only [sendStatUpdate_fst, safeEmit_fst]
  exact dequeAppend_getLast maxLogs (by decide) _ _

/-- A trace ending in a `send_stat_update` broadcast delivers, as the last
message to any live attached viewer, the stats snapshot of the session
state at that point (equivalently of the returned final state, which
differs only in its socket set). -/
theorem trace_tail_stats (pre : List Delivery) (Y : SessionData) (v : Viewer)
    (hv : v ∈ Y.active_sockets) (hok : v.ok = true) :
    (received v.id (pre ++ (sendStatUpdate Y).2)).getLast? =
      some (WsMsg.stats (statsPayload (sendStatUpdate Y).1)) := by
  rw [sendStatUpdate_snd, sendStatUpdate_fst]
  have hp : statsPayload
      { Y with active_sockets := liveSockets Y.active_sockets } =
      statsPayload Y := rfl
  rw [hp]
  exact received_last pre _ _ v hv hok

theorem applyEmits_sockets_nil (s : SessionData) (msgs : List String)
    (h : s.active_sockets = []) : (applyEmits s msgs).active_sockets = [] := by
  induction msgs generalizing s with
  | nil => exact h
  | cons m ms ih =>
    simp only [applyEmits, List.foldl_cons]
    exact ih _ (by simp [safeEmit_fst, liveSockets, h])

theorem applyEmits_logs_nil (s : SessionData) (msgs : List String)
    (h : s.logs = []) :
    (applyEmits s msgs).logs = msgs.drop (msgs.length - maxLogs) := by
  rw [applyEmits_logs, h, foldl_dequeAppend maxLogs msgs [] (by simp)]
  simp

theorem applyEmits_fields (s : SessionData) (msgs : List String) :
    (applyEmits s msgs).crawled_count = s.crawled_count ∧
    (applyEmits s msgs).is_running = s.is_running ∧
    (applyEmits s msgs).start_time = s.start_time ∧
    (applyEmits s msgs).error_message = s.error_message := by
  induction msgs generalizing s with
  | nil => exact ⟨rfl, rfl, rfl, rfl⟩
  | cons m ms ih =>
    simp only [applyEmits, List.foldl_cons]
    exact ih _

/-- Attaching a live viewer to a session that accumulated a non-empty
history while no viewer was connected: `connect` succeeds and sends the
joined history as one frame followed by one stats snapshot. -/
theorem connect_after_emits (s0 : SessionData) (msgs : List String)
    (v : Viewer) (h0 : s0.logs = []) (hs : s0.active_sockets = [])
    (hok : v.ok = true) (hne : msgs ≠ []) :
    connect (applyEmits s0 msgs) v =
      Except.ok ({ applyEmits s0 msgs with active_sockets := [v] },
        (v.id, WsMsg.text (String.intercalate "\n" (applyEmits s0 msgs).logs))
          :: [(v.id, WsMsg.stats (statsPayload (applyEmits s0 msgs)))]) := by
  have hsock : (applyEmits s0 msgs).active_sockets = [] :=
    applyEmits_sockets_nil s0 msgs hs
  have hlogs : (applyEmits s0 msgs).logs = msgs.drop (msgs.length - maxLogs) :=
    applyEmits_logs_nil s0 msgs h0
  have hlne : (applyEmits s0 msgs).logs ≠ [] := by
    rw [hlogs]
    have h1 : msgs.length ≠ 0 := fun hz =>
      hne (List.eq_nil_of_length_eq_zero hz)
    have h2 : maxLogs = 500 := rfl
    intro hcon
    have h3 := congrArg List.length hcon
    rw [List.length_drop, List.length_nil, h2] at h3
    omega
  have hempty : (applyEmits s0 msgs).logs.isEmpty = false := by
    cases hcase : (applyEmits s0 msgs).logs
    · exact absurd hcase hlne
    · rfl
  simp [connect, hsock, hempty, hok, sendStatUpdate_fst, sendStatUpdate_snd,
    broadcast, liveSockets, statsPayload]

/-- The loop guards of `get_sessions_history` (lines 325-340) are exactly
the declarative `MatchesCode` predicate. -/
theorem passesFilters_iff (q : Option String) (targetDate : Option Nat)
    (platform : Option String) (dateOf : Nat → Nat) (s : SessionData) :
    passesFilters q targetDate platform dateOf s = true ↔
      MatchesCode q targetDate platform dateOf s := by
  unfold passesFilters MatchesCode
  rw [Bool.and_eq_true, Bool.and_eq_true, and_assoc]
  apply and_congr
  · rw [Bool.or_eq_true, beq_iff_eq, strIn_iff]
  apply and_congr
  · cases platform with
    | none => simp
    | some p => simp [Bool.or_eq_true, beq_iff_eq, or_assoc]
  · cases targetDate with
    | none => simp
    | some d =>
      cases hst : s.start_time with
      | none => simp [hst]
      | some t =>
        simp only [Bool.and_eq_true, Bool.not_eq_true', beq_eq_false_iff_ne,
          beq_iff_eq, Option.some.injEq, forall_eq', exists_eq_left']

/-! ## Claim theorems -/

/-- Claim C3: for every session and every sequence of append operations
(starting from the empty history that session creation and each run start
establish), the history never exceeds `maxLogs` (500) entries and the
retained entries are exactly the most recent `maxLogs` appended entries in
append order — the suffix `msgs.drop (msgs.length - maxLogs)` of the
appended sequence, so the oldest entries are the ones evicted. -/
theorem c3_history_bounded_fifo (s : SessionData) (msgs : List String)
    (h : s.logs = []) :
    (applyEmits s msgs).logs.length ≤ maxLogs ∧
      (applyEmits s msgs).logs = msgs.drop (msgs.length - maxLogs) := by
  have hl : (applyEmits s msgs).logs = msgs.drop (msgs.length - maxLogs) := by
    rw [applyEmits_logs, h, foldl_dequeAppend maxLogs msgs [] (by simp)]
    simp
  refine ⟨?_, hl⟩
  rw [hl]
  simp only [List.length_drop]
  omega

theorem c3_history_bounded_fifo_witness :
    initSessionData.logs = [] ∧
      ((applyEmits initSessionData ["a", "b"]).logs.length ≤ maxLogs ∧
        (applyEmits initSessionData ["a", "b"]).logs =
          ["a", "b"].drop (["a", "b"].length - maxLogs)) :=
  ⟨rfl, c3_history_bounded_fifo initSessionData ["a", "b"] rfl⟩

/-- Claim C9: the update callback is not total on its declared-optional
arguments.  With `message = None` and `data_item = None` the log step is
skipped (falsy message), and the count guard evaluates
`"保存成功" in None`, raising a `TypeError`; the embedded callback returns
an error and performs no state mutation at all (the log append the claim allows for never
happens on this input, since the message is falsy). -/
theorem c9_callback_none_raises (s : SessionData) :
    onCrawlerUpdate none none s =
      Except.error "TypeError: argument of type NoneType is not iterable" := rfl

/-- Claim C10: the externally emitted status string — in stats snapshots
(`send_stat_update`) and session-list rows (`get_sessions_history`) — is
exactly `"running"` when `is_running` is set and `"stopped"` otherwise;
`"error"` and `"idle"` are never emitted, so a session that ended in error
is indistinguishable in this field from one that stopped normally. -/
theorem c10_status_string (sid : String) (s : SessionData) :
    (statsPayload s).status = (if s.is_running then "running" else "stopped") ∧
    (mkRow sid s).status = (if s.is_running then "running" else "stopped") ∧
    (statsPayload s).status ≠ "error" ∧ (statsPayload s).status ≠ "idle" ∧
    (mkRow sid s).status ≠ "error" ∧ (mkRow sid s).status ≠ "idle" := by
  cases hr : s.is_running <;> simp [statsPayload, mkRow, hr]

/-- Claim C6: `safe_emit` (and the stats publish) never raises to its
caller (both are total functions into state × deliveries), a failing
viewer is removed and only failing viewers are removed, and every other
attached viewer still receives the event. -/
theorem c6_viewer_failure_isolation (s : SessionData) (m : String) (v : Viewer)
    (hv : v ∈ s.active_sockets) :
    (safeEmit s m).1.active_sockets =
        s.active_sockets.filter (fun w => w.ok) ∧
    (v.ok = true →
      (v.id, WsMsg.text m) ∈ (safeEmit s m).2 ∧
        v ∈ (safeEmit s m).1.active_sockets) ∧
    (v.ok = false → v ∉ (safeEmit s m).1.active_sockets) ∧
    (sendStatUpdate s).1.active_sockets =
        s.active_sockets.filter (fun w => w.ok) ∧
    (v.ok = true →
      (v.id, WsMsg.stats (statsPayload s)) ∈ (sendStatUpdate s).2) := by
  refine ⟨rfl, ?_, ?_, ?_, ?_⟩
  · intro hok
    constructor
    · rw [safeEmit_snd]
      exact List.mem_map_of_mem _ (List.mem_filter.mpr ⟨hv, hok⟩)
    · rw [safeEmit_fst]
      exact List.mem_filter.mpr ⟨hv, hok⟩
  · intro hok
    rw [safeEmit_fst]
    intro hmem
    have := (List.mem_filter.mp hmem).2
    rw [hok] at this
    exact Bool.false_ne_true this
  · rw [sendStatUpdate_fst]
    rfl
  · intro hok
    rw [sendStatUpdate_snd]
    exact List.mem_map_of_mem _ (List.mem_filter.mpr ⟨hv, hok⟩)

/-- The spec's three-viewer scenario: the second viewer's connection is
broken, the first and third still receive, the second is removed. -/
theorem c6_viewer_failure_isolation_witness :
    (⟨2, false⟩ : Viewer) ∈ c6Session.active_sockets ∧
      ((safeEmit c6Session "e").1.active_sockets =
          c6Session.active_sockets.filter (fun w => w.ok) ∧
      ((⟨2, false⟩ : Viewer).ok = true →
        ((2 : Nat), WsMsg.text "e") ∈ (safeEmit c6Session "e").2 ∧
          (⟨2, false⟩ : Viewer) ∈ (safeEmit c6Session "e").1.active_sockets) ∧
      ((⟨2, false⟩ : Viewer).ok = false →
        (⟨2, false⟩ : Viewer) ∉ (safeEmit c6Session "e").1.active_sockets) ∧
      (sendStatUpdate c6Session).1.active_sockets =
          c6Session.active_sockets.filter (fun w => w.ok) ∧
      ((⟨2, false⟩ : Viewer).ok = true →
        ((2 : Nat), WsMsg.stats (statsPayload c6Session)) ∈
          (sendStatUpdate c6Session).2)) :=
  ⟨by decide, c6_viewer_failure_isolation c6Session "e" ⟨2, false⟩ (by decide)⟩

/-- Claim C4: starting `run_crawler_task` on a session that is already
running emits exactly one notice event (to each live viewer) and returns:
no transition to `Running` is performed again (the flag simply stays
`true`, and no stats snapshot is broadcast), `crawledCount` and
`startTime` are untouched, and the persistence hook slot is untouched. -/
theorem c4_duplicate_start_rejected (req : CrawlRequest) (outcome : JobOutcome)
    (now : Nat) (s : SessionData) (hook : HookState)
    (h : s.is_running = true) :
    (runCrawlerTask req outcome now s hook).1.crawled_count =
        s.crawled_count ∧
    (runCrawlerTask req outcome now s hook).1.start_time = s.start_time ∧
    (runCrawlerTask req outcome now s hook).1.is_running = true ∧
    (runCrawlerTask req outcome now s hook).1.error_message =
        s.error_message ∧
    (runCrawlerTask req outcome now s hook).2.1 = hook ∧
    (runCrawlerTask req outcome now s hook).2.2 =
      (s.active_sockets.filter fun w => w.ok).map
        (fun w => (w.id, WsMsg.text "⚠️ 任务已经在运行中，请勿重复启动。")) := by
  have hrun : runCrawlerTask req outcome now s hook =
      ((safeEmit s "⚠️ 任务已经在运行中，请勿重复启动。").1, hook,
        (safeEmit s "⚠️ 任务已经在运行中，请勿重复启动。").2) := by
    simp [runCrawlerTask, h]
  rw [hrun]
  exact ⟨rfl, rfl, h, rfl, rfl, rfl⟩

theorem c4_duplicate_start_rejected_witness :
    c4Session.is_running = true ∧
      ((runCrawlerTask c4Req JobOutcome.success 7 c4Session
          HookState.original).1.crawled_count = c4Session.crawled_count ∧
      (runCrawlerTask c4Req JobOutcome.success 7 c4Session
          HookState.original).1.start_time = c4Session.start_time ∧
      (runCrawlerTask c4Req JobOutcome.success 7 c4Session
          HookState.original).1.is_running = true ∧
      (runCrawlerTask c4Req JobOutcome.success 7 c4Session
          HookState.original).1.error_message = c4Session.error_message ∧
      (runCrawlerTask c4Req JobOutcome.success 7 c4Session
          HookState.original).2.1 = HookState.original ∧
      (runCrawlerTask c4Req JobOutcome.success 7 c4Session
          HookState.original).2.2 =
        (c4Session.active_sockets.filter fun w => w.ok).map
          (fun w => (w.id, WsMsg.text "⚠️ 任务已经在运行中，请勿重复启动。"))) :=
  ⟨rfl, c4_duplicate_start_rejected c4Req JobOutcome.success 7 c4Session
    HookState.original rfl⟩

/-- Claim C1 counterexample: the code has no `runGeneration` and
`on_crawler_update` performs no staleness check.  On a session whose
deadline already expired (the run was marked non-running), a subsequent
callback invocation still increments `crawledCount` (3 → 4) and appends
the message to the history (1 → 2 entries), so the claimed "no observable
state change" is false on this concrete input. -/
theorem c1_counterexample :
    c1State.is_running = false ∧
    c1State.crawled_count = 3 ∧ c1State.logs.length = 1 ∧
    (onCrawlerUpdate (some "📝 笔记 n1 数据获取成功") (some [("note_id", "n1")])
        c1State).toOption.map
      (fun r => (r.1.crawled_count, r.1.logs.length)) = some (4, 2) := by
  decide

/-- Claim C1 amended: a callback carrying a stale run generation is NOT
dropped — no generation token exists in the code.  For every session
state (in particular after the deadline expired or a later run started)
an invocation of the update callback with a truthy message and data item
succeeds and mutates observable state: it appends the message to the
history and increments `crawledCount`, regardless of `is_running`. -/
theorem c1_amended_no_staleness_guard (s : SessionData) (m : String) (d : Dict)
    (hm : m ≠ "") (hd : d ≠ []) :
    ∃ r, onCrawlerUpdate (some m) (some d) s = Except.ok r ∧
      r.1.crawled_count = s.crawled_count + 1 ∧
      r.1.logs = dequeAppend maxLogs s.logs m ∧
      r.1.is_running = s.is_running ∧
      r.1.error_message = s.error_message := by
  have hm' : (m == "") = false := beq_eq_false_iff_ne.mpr hm
  have hd' : d.isEmpty = false := by
    cases d with
    | nil => exact absurd rfl hd
    | cons a as => rfl
  have key : onCrawlerUpdate (some m) (some d) s =
      Except.ok ((sendDataUpdate (incrementCount (safeEmit s m).1).1 d).1,
        (safeEmit s m).2 ++ (incrementCount (safeEmit s m).1).2 ++
          (sendDataUpdate (incrementCount (safeEmit s m).1).1 d).2) := by
    simp [onCrawlerUpdate, hm', hd']
  refine ⟨_, key, ?_, ?_, ?_, ?_⟩ <;>
    simp [sendDataUpdate_fst, incrementCount_fst, safeEmit_fst]

theorem c1_amended_no_staleness_guard_witness :
    ("保存成功了" : String) ≠ "" ∧ ([("k", "v")] : Dict) ≠ [] ∧
      (∃ r, onCrawlerUpdate (some "保存成功了") (some [("k", "v")]) c1State =
          Except.ok r ∧
        r.1.crawled_count = c1State.crawled_count + 1 ∧
        r.1.logs = dequeAppend maxLogs c1State.logs "保存成功了" ∧
        r.1.is_running = c1State.is_running ∧
        r.1.error_message = c1State.error_message) :=
  ⟨by decide, by decide,
    c1_amended_no_staleness_guard c1State "保存成功了" [("k", "v")]
      (by decide) (by decide)⟩

/-- Claim C2 (code bug evidence): running the task against a job that
exceeds the deadline.  The `except asyncio.TimeoutError` handler does
record the reason — the trace transiently carries a stats snapshot with
`error_message = "任务超时"` — but the inner `finally` then calls
`set_status(session_id, False)` whose Python default `error_message=None`
clears it.  After the task finishes, `error_message` is `None`, the
status emitted is `"stopped"`, and the timeout reason survives only as a
log line, contradicting the claim that the session ends with the timeout
reason recorded in `errorMessage`. -/
theorem c2_timeout_reason_cleared :
    (runCrawlerTask c2Req JobOutcome.timeout 1000 c2Session
        HookState.original).1.error_message = none ∧
    (runCrawlerTask c2Req JobOutcome.timeout 1000 c2Session
        HookState.original).1.is_running = false ∧
    (statsPayload (runCrawlerTask c2Req JobOutcome.timeout 1000 c2Session
        HookState.original).1).status = "stopped" ∧
    ((1 : Nat), WsMsg.stats
        { crawled_count := 0, status := "stopped", start_time := some 1000
        , error_message := some "任务超时" }) ∈
      (runCrawlerTask c2Req JobOutcome.timeout 1000 c2Session
        HookState.original).2.2 ∧
    (runCrawlerTask c2Req JobOutcome.timeout 1000 c2Session
        HookState.original).2.2.getLast? =
      some ((1 : Nat), WsMsg.stats
        { crawled_count := 0, status := "stopped", start_time := some 1000
        , error_message := none }) := by
  decide

/-- Claim C8: on every terminal path of a run — normal completion,
deadline timeout, job failure, and also the crawler-creation failure that
lands in the outer `except` handler — the task hands back the original
persistence hook (`xhs_store.update_xhs_note` is restored by the inner
`finally`, or never overridden on the creation-failure path), the last
history entry is the final log line `"🏁 任务结束"`, and the last message
any live attached viewer receives is one final stats snapshot of the
final session state.  This is unconditional over the outcome. -/
theorem c8_terminal_cleanup (req : CrawlRequest) (outcome : JobOutcome)
    (now : Nat) (s : SessionData) (hook : HookState) (v : Viewer)
    (hrun : s.is_running = false) (hv : v ∈ s.active_sockets)
    (hok : v.ok = true) :
    (runCrawlerTask req outcome now s hook).2.1 = hook ∧
    (runCrawlerTask req outcome now s hook).1.logs.getLast? =
      some "🏁 任务结束" ∧
    (received v.id (runCrawlerTask req outcome now s hook).2.2).getLast? =
      some (WsMsg.stats
        (statsPayload (runCrawlerTask req outcome now s hook).1)) := by
  cases hc : createCrawler req.platform with
  | error e =>
    simp only [runCrawlerTask, hrun, Bool.false_eq_true, if_false, hc]
    refine ⟨trivial, logs_tail_final _, ?_⟩
    apply trace_tail_stats
    · simp only [safeEmit_fst, setStatus_fst, liveSockets_idem]
      exact List.mem_filter.mpr ⟨hv, hok⟩
    · exact hok
  | ok u =>
    cases outcome with
    | success =>
      simp only [runCrawlerTask, hrun, Bool.false_eq_true, if_false, hc]
      refine ⟨trivial, logs_tail_final _, ?_⟩
      apply trace_tail_stats
      · simp only [safeEmit_fst, setStatus_fst, liveSockets_idem]
        exact List.mem_filter.mpr ⟨hv, hok⟩
      · exact hok
    | timeout =>
      simp only [runCrawlerTask, hrun, Bool.false_eq_true, if_false, hc]
      refine ⟨trivial, logs_tail_final _, ?_⟩
      apply trace_tail_stats
      · simp only [safeEmit_fst, setStatus_fst, liveSockets_idem]
        exact List.mem_filter.mpr ⟨hv, hok⟩
      · exact hok
    | failure e =>
      simp only [runCrawlerTask, hrun, Bool.false_eq_true, if_false, hc]
      refine ⟨trivial, logs_tail_final _, ?_⟩
      apply trace_tail_stats
      · simp only [safeEmit_fst, setStatus_fst, liveSockets_idem]
        exact List.mem_filter.mpr ⟨hv, hok⟩
      · exact hok

theorem c8_terminal_cleanup_witness :
    c2Session.is_running = false ∧
    (⟨1, true⟩ : Viewer) ∈ c2Session.active_sockets ∧
    (⟨1, true⟩ : Viewer).ok = true ∧
      ((runCrawlerTask c2Req (JobOutcome.failure "boom") 1000 c2Session
          HookState.original).2.1 = HookState.original ∧
      (runCrawlerTask c2Req (JobOutcome.failure "boom") 1000 c2Session
          HookState.original).1.logs.getLast? = some "🏁 任务结束" ∧
      (received (⟨1, true⟩ : Viewer).id
          (runCrawlerTask c2Req (JobOutcome.failure "boom") 1000 c2Session
            HookState.original).2.2).getLast? =
        some (WsMsg.stats
          (statsPayload (runCrawlerTask c2Req (JobOutcome.failure "boom")
            1000 c2Session HookState.original).1))) :=
  ⟨rfl, by decide, rfl,
    c8_terminal_cleanup c2Req (JobOutcome.failure "boom") 1000 c2Session
      HookState.original ⟨1, true⟩ rfl (by decide) rfl⟩

/-- Claim C5 counterexample: the catch-up payload on attach is built from
the RETAINED history, not from all appended entries.  After exactly
N = 501 log appends, the session retains only 500 entries, and the viewer
attaching then receives as catch-up the join of those 500 entries — not
the 501 appended ones — so "a viewer that attaches after exactly N log
appends receives those N history entries" fails at N = 501. -/
theorem c5_counterexample :
    (applyEmits initSessionData (List.replicate 501 "x")).logs =
        List.replicate 500 "x" ∧
    (List.replicate 501 "x").length = 501 ∧
    (connect (applyEmits initSessionData (List.replicate 501 "x"))
        ⟨7, true⟩).toOption.map (fun r => received 7 r.2) =
      some [WsMsg.text (String.intercalate "\n"
              (applyEmits initSessionData (List.replicate 501 "x")).logs),
        WsMsg.stats { crawled_count := 0, status := "stopped"
                    , start_time := none, error_message := none }] ∧
    (applyEmits initSessionData (List.replicate 501 "x")).logs ≠
      List.replicate 501 "x" := by
  have hlg : (applyEmits initSessionData (List.replicate 501 "x")).logs =
      List.replicate 500 "x" := by
    rw [applyEmits_logs_nil _ _ rfl, List.length_replicate,
      List.drop_replicate]
    norm_num [maxLogs]
  have hne : List.replicate 501 "x" ≠ ([] : List String) := by
    intro h
    have hl := congrArg List.length h
    rw [List.length_replicate, List.length_nil] at hl
    exact absurd hl (by norm_num)
  have hp : statsPayload (applyEmits initSessionData (List.replicate 501 "x"))
      = { crawled_count := 0, status := "stopped"
        , start_time := none, error_message := none } := by
    obtain ⟨h1, h2, h3, h4⟩ :=
      applyEmits_fields initSessionData (List.replicate 501 "x")
    simp only [statsPayload, h1, h2, h3, h4]
    rfl
  refine ⟨hlg, by rw [List.length_replicate], ?_, ?_⟩
  · rw [connect_after_emits initSessionData (List.replicate 501 "x") ⟨7, true⟩
      rfl rfl rfl hne, hp]
    rfl
  · rw [hlg]
    intro h
    have hl := congrArg List.length h
    rw [List.length_replicate, List.length_replicate] at hl
    exact absurd hl (by norm_num)

/-- Claim C5 amended: a viewer attaching after N ≥ 1 log appends (from the
cleared history a run start establishes, with no other viewer attached)
receives the RETAINED history — the most recent `min N maxLogs` entries,
in append order, which is all N entries whenever N ≤ maxLogs — as one
catch-up frame, followed by exactly one stats snapshot, and receives any
subsequently appended event only after both. -/
theorem c5_amended_attach_catchup (s0 : SessionData) (msgs : List String)
    (m2 : String) (v : Viewer) (h0 : s0.logs = [])
    (hs : s0.active_sockets = []) (hok : v.ok = true) (hne : msgs ≠ []) :
    ∃ s2 tr, connect (applyEmits s0 msgs) v = Except.ok (s2, tr) ∧
      received v.id tr =
        [WsMsg.text (String.intercalate "\n"
            (msgs.drop (msgs.length - maxLogs))),
          WsMsg.stats (statsPayload (applyEmits s0 msgs))] ∧
      received v.id (safeEmit s2 m2).2 = [WsMsg.text m2] := by
  refine ⟨_, _, connect_after_emits s0 msgs v h0 hs hok hne, ?_, ?_⟩
  · rw [applyEmits_logs_nil s0 msgs h0]
    simp [received]
  · simp [safeEmit_snd, broadcast, liveSockets, hok, received]

theorem c5_amended_attach_catchup_witness :
    initSessionData.logs = [] ∧ initSessionData.active_sockets = [] ∧
    (⟨7, true⟩ : Viewer).ok = true ∧ (["a", "b"] : List String) ≠ [] ∧
      (∃ s2 tr, connect (applyEmits initSessionData ["a", "b"]) ⟨7, true⟩ =
          Except.ok (s2, tr) ∧
        received (⟨7, true⟩ : Viewer).id tr =
          [WsMsg.text (String.intercalate "\n"
              (["a", "b"].drop ((["a", "b"] : List String).length - maxLogs))),
            WsMsg.stats (statsPayload (applyEmits initSessionData ["a", "b"]))] ∧
        received (⟨7, true⟩ : Viewer).id (safeEmit s2 "c").2 =
          [WsMsg.text "c"]) :=
  ⟨rfl, rfl, rfl, by decide,
    c5_amended_attach_catchup initSessionData ["a", "b"] "c" ⟨7, true⟩
      rfl rfl rfl (by decide)⟩

/-- Claim C7 counterexample: the code's filters diverge from the claim's
wording on two reachable inputs.  (a) With the platform filter present as
the empty string, the code treats it as falsy and disables the filter,
returning the `platform = "xhs"` session the claim's equality test would
exclude.  (b) With the query `" ca"` (leading space), the code strips it
and matches keyword `"cat"`, while the claim's substring test on the
query as given does not match.  `specGetSessionsHistory`, modelled from
the claim's words, returns `[]` in both cases while the code returns the
session. -/
theorem c7_counterexample :
    getSessionsHistory dateOfDays c7Registry none none (some "") = [c7Row] ∧
    c7Row.platform = "xhs" ∧
    specGetSessionsHistory dateOfDays c7Registry none none (some "") = [] ∧
    getSessionsHistory dateOfDays c7Registry (some " ca") none none =
      [c7Row] ∧
    specGetSessionsHistory dateOfDays c7Registry (some " ca") none none =
      [] := by
  have h1 : (c7Registry.filterMap fun p =>
      if passesFilters none none (some "") dateOfDays p.2 then
        some (mkRow p.1 p.2) else none) = [c7Row] := by decide
  have h2 : (c7Registry.filterMap fun p =>
      if specPassesFilters none none (some "") dateOfDays p.2 then
        some (mkRow p.1 p.2) else none) = [] := by decide
  have h3 : (c7Registry.filterMap fun p =>
      if passesFilters (some " ca") none none dateOfDays p.2 then
        some (mkRow p.1 p.2) else none) = [c7Row] := by decide
  have h4 : (c7Registry.filterMap fun p =>
      if specPassesFilters (some " ca") none none dateOfDays p.2 then
        some (mkRow p.1 p.2) else none) = [] := by decide
  refine ⟨?_, rfl, ?_, ?_, ?_⟩
  · simp only [getSessionsHistory]
    rw [h1]
    exact List.mergeSort_singleton c7Row
  · simp only [specGetSessionsHistory]
    rw [h2]
    exact List.mergeSort_nil
  · simp only [getSessionsHistory]
    rw [h3]
    exact List.mergeSort_singleton c7Row
  · simp only [specGetSessionsHistory]
    rw [h4]
    exact List.mergeSort_nil

/-- Claim C7 amended: the session list returns exactly the sessions
matching the code's filters — keyword must contain the
whitespace-STRIPPED query as a case-insensitive substring (absent, empty
or whitespace-only query matches all); platform must equal the filter
unless the filter is absent, EMPTY, or `"all"`; the date filter requires
a truthy `startTime` whose derived calendar date equals the target
(sessions without one never match) — ordered descending by
`startTime or 0`, which places sessions lacking a `startTime` after all
others provided every recorded `startTime` is positive (always true for
real `time.time()` stamps). -/
theorem c7_amended_history_query (dateOf : Nat → Nat)
    (registry : List (String × SessionData)) (q : Option String)
    (targetDate : Option Nat) (platform : Option String)
    (hpos : ∀ p ∈ registry, 0 < p.2.start_time.getD 1) :
    (∀ r, r ∈ getSessionsHistory dateOf registry q targetDate platform ↔
      ∃ p ∈ registry, MatchesCode q targetDate platform dateOf p.2 ∧
        r = mkRow p.1 p.2) ∧
    List.Pairwise (fun a b => rowKey b ≤ rowKey a)
      (getSessionsHistory dateOf registry q targetDate platform) ∧
    List.Pairwise (fun a b => a.start_time = none → b.start_time = none)
      (getSessionsHistory dateOf registry q targetDate platform) := by
  have hmem : ∀ r,
      r ∈ getSessionsHistory dateOf registry q targetDate platform ↔
      ∃ p ∈ registry, MatchesCode q targetDate platform dateOf p.2 ∧
        r = mkRow p.1 p.2 := by
    intro r
    simp only [getSessionsHistory]
    rw [List.mem_mergeSort, List.mem_filterMap]
    constructor
    · rintro ⟨p, hp, hf⟩
      by_cases hpass : passesFilters q targetDate platform dateOf p.2
      · rw [if_pos hpass] at hf
        cases hf
        exact ⟨p, hp, (passesFilters_iff _ _ _ _ _).mp hpass, rfl⟩
      · rw [if_neg hpass] at hf
        cases hf
    · rintro ⟨p, hp, hmc, rfl⟩
      exact ⟨p, hp, by
        rw [if_pos ((passesFilters_iff q targetDate platform dateOf p.2).mpr
          hmc)]⟩
  have htrans : ∀ a b c : SummaryRow,
      (fun x y => decide (rowKey y ≤ rowKey x)) a b = true →
      (fun x y => decide (rowKey y ≤ rowKey x)) b c = true →
      (fun x y => decide (rowKey y ≤ rowKey x)) a c = true := by
    intro a b c hab hbc
    simp only [decide_eq_true_eq] at hab hbc ⊢
    omega
  have htotal : ∀ a b : SummaryRow,
      ((fun x y => decide (rowKey y ≤ rowKey x)) a b ||
        (fun x y => decide (rowKey y ≤ rowKey x)) b a) = true := by
    intro a b
    simp only [Bool.or_eq_true, decide_eq_true_eq]
    omega
  have hsorted : List.Pairwise (fun a b => rowKey b ≤ rowKey a)
      (getSessionsHistory dateOf registry q targetDate platform) := by
    simp only [getSessionsHistory]
    have h := List.sorted_mergeSort htrans htotal
      (registry.filterMap fun p =>
        if passesFilters q targetDate platform dateOf p.2 then
          some (mkRow p.1 p.2) else none)
    exact h.imp (by intro a b hab; exact of_decide_eq_true hab)
  have hposrow : ∀ r,
      r ∈ getSessionsHistory dateOf registry q targetDate platform →
      0 < r.start_time.getD 1 := by
    intro r hr
    rcases (hmem r).mp hr with ⟨p, hp, _, rfl⟩
    exact hpos p hp
  refine ⟨hmem, hsorted, ?_⟩
  refine List.Pairwise.imp_of_mem ?_ hsorted
  intro a b ha hb hle hanone
  cases hbs : b.start_time with
  | none => rfl
  | some t =>
    have h1 := hposrow b hb
    rw [hbs] at h1
    have h2 : rowKey a = 0 := by simp [rowKey, hanone]
    have h3 : rowKey b = t := by simp [rowKey, hbs]
    rw [h2, h3] at hle
    simp only [Option.getD_some] at h1
    omega

/-- The spec's own cat/dog example registry, queried with `q = "ca"` and
`platform = "all"`. -/
theorem c7_amended_history_query_witness :
    (∀ p ∈ c7Reg2, 0 < p.2.start_time.getD 1) ∧
      ((∀ r, r ∈ getSessionsHistory dateOfDays c7Reg2 (some "ca") none
            (some "all") ↔
        ∃ p ∈ c7Reg2, MatchesCode (some "ca") none (some "all") dateOfDays
            p.2 ∧ r = mkRow p.1 p.2) ∧
      List.Pairwise (fun a b => rowKey b ≤ rowKey a)
        (getSessionsHistory dateOfDays c7Reg2 (some "ca") none (some "all")) ∧
      List.Pairwise (fun a b => a.start_time = none → b.start_time = none)
        (getSessionsHistory dateOfDays c7Reg2 (some "ca") none
          (some "all"))) :=
  ⟨by decide,
    c7_amended_history_query dateOfDays c7Reg2 (some "ca") none (some "all")
      (by decide)⟩

end Server
